import Mathlib

/-!
Shallow embedding of `fretboard.py` (LearnTheFretboard): musical notes with
letters and accidentals, semitone stepping, scale construction, the scale
registry, and the scale-name normalizer, together with theorems settling the
specification claims about them.
-/

/-- `applyNTimes(f, x, n)` from the Utils section: apply `f` to `x`, `n` times. -/
def applyNTimes {α : Type u} (f : α → α) (x : α) : Nat → α
  | 0 => x
  | n + 1 => applyNTimes f (f x) n

/-- The `Accidental` enum: `flat = 0`, `natural = 1`, `sharp = 2`. -/
inductive Accidental where
  | flat
  | natural
  | sharp
  deriving DecidableEq, Repr

/-- The numeric value of each `Accidental` enum member, used by the inherited
`OrderedEnum` comparisons. -/
def Accidental.val : Accidental → Nat
  | .flat => 0
  | .natural => 1
  | .sharp => 2

/-- `Accidental.__str__`: the Unicode display symbol. -/
def Accidental.str : Accidental → String
  | .flat => "♭"
  | .natural => "♮"
  | .sharp => "♯"

/-- The fixed message of the `ValueError` raised by `Accidental.from_string`
on unrecognized input (the `\x27` escapes are ASCII apostrophes). -/
def invalidAccidentalMsg : String :=
  "Invalid accidental symbol. String must be a single character, one of \x27♭\x27, \x27♮\x27, or \x27♯\x27"

/-- `Accidental.from_string`: matches the five recognized strings in source
order, raising `ValueError` (modelled as `Except.error`) otherwise. -/
def Accidental.from_string (s : String) : Except String Accidental :=
  if s = "♭" then .ok .flat
  else if s = "b" then .ok .flat
  else if s = "♮" then .ok .natural
  else if s = "♯" then .ok .sharp
  else if s = "#" then .ok .sharp
  else .error invalidAccidentalMsg

/-- `LETTER_NOTES = list("CDEFGAB")`. -/
def LETTER_NOTES : List Char := ['C', 'D', 'E', 'F', 'G', 'A', 'B']

/-- `CANT_BE_SHARP = set("BE")`. -/
def CANT_BE_SHARP : List Char := ['B', 'E']

/-- `CANT_BE_FLAT = set("CF")`. -/
def CANT_BE_FLAT : List Char := ['C', 'F']

/-- `next_letter`: `G` wraps to `A`, otherwise the next character code. -/
def next_letter (letter : Char) : Char :=
  if letter = 'G' then 'A' else Char.ofNat (letter.toNat + 1)

/-- A `Note` value: the `letter` and `accidental` attributes. The Python
constructor stores the letter uppercased and only ever accepts members of
`LETTER_NOTES`; `Note.mk?` below models that checked constructor. -/
structure Note where
  letter : Char
  accidental : Accidental
  deriving DecidableEq, Repr

/-- `Note.__init__`: uppercase the letter, then raise `ValueError` unless it
is in `LETTER_NOTES`. -/
def Note.mk? (letter : Char) (accidental : Accidental) : Except String Note :=
  let l := letter.toUpper
  if l ∈ LETTER_NOTES then .ok ⟨l, accidental⟩
  else .error "Invalid note letter"

/-- `Note.__lt__`: Python tuple comparison on `(letter, accidental)` —
letters by character code, accidentals by enum value. -/
def Note.lt (m n : Note) : Prop :=
  m.letter < n.letter ∨ (m.letter = n.letter ∧ m.accidental.val < n.accidental.val)

instance : DecidableRel Note.lt := fun m n => by
  unfold Note.lt; infer_instance

/-- The boolean `≤` on notes induced by the same tuple order, used for sorting. -/
def Note.leb (m n : Note) : Bool :=
  m.letter < n.letter || (m.letter = n.letter && m.accidental.val ≤ n.accidental.val)

/-- `Note.__str__`: letter followed by the accidental symbol. -/
def Note.str (n : Note) : String :=
  String.mk [n.letter] ++ n.accidental.str

/-- `Note.semitone_above`, total on `Note` values (every constructed `Note`
has a valid letter, and `next_letter` sends valid letters to valid letters,
so the internal constructor calls never raise; `Note.semitone_above?` below
keeps those checks and `semitone_above_ok` connects the two). -/
def Note.semitone_above (n : Note) : Note :=
  match n.accidental with
  | .natural =>
    if n.letter ∉ CANT_BE_SHARP then ⟨n.letter, .sharp⟩
    else ⟨next_letter n.letter, .natural⟩
  | .sharp => ⟨next_letter n.letter, .natural⟩
  | .flat => ⟨n.letter, .natural⟩

/-- `Note.semitone_above` with the constructor checks kept: each branch calls
the checked constructor `Note.mk?` exactly as the source calls `Note(...)`. -/
def Note.semitone_above? (n : Note) : Except String Note :=
  match n.accidental with
  | .natural =>
    if n.letter ∉ CANT_BE_SHARP then Note.mk? n.letter .sharp
    else Note.mk? (next_letter n.letter) .natural
  | .sharp => Note.mk? (next_letter n.letter) .natural
  | .flat => Note.mk? n.letter .natural

/-- `Note.semitones_above(n)`: `applyNTimes(semitone_above, self, n)`. -/
def Note.semitones_above (n : Note) (k : Nat) : Note :=
  applyNTimes Note.semitone_above n k

/-- `Note.tone_above`. -/
def Note.tone_above (n : Note) : Note :=
  n.semitones_above 2

/-- `Note.tones_above`. -/
def Note.tones_above (n : Note) (k : Nat) : Note :=
  n.semitones_above (2 * k)

/-- `Note.from_string`: a 1-character string is a natural note, a 2-character
string parses its accidental (propagating its error), anything else raises. -/
def Note.from_string (s : String) : Except String Note :=
  match s.data with
  | [c] => Note.mk? c .natural
  | [c, a] =>
    match Accidental.from_string (String.mk [a]) with
    | .ok acc => Note.mk? c acc
    | .error e => .error e
  | _ => .error "Invalid note string."

/-- `major_scale(tonic)`. -/
def major_scale (tonic : Note) : List Note :=
  [ tonic,
    tonic.semitones_above 2,
    tonic.semitones_above 4,
    tonic.semitones_above 5,
    tonic.semitones_above 7,
    tonic.semitones_above 9,
    tonic.semitones_above 11 ]

/-- `natural_minor_scale(tonic)`. -/
def natural_minor_scale (tonic : Note) : List Note :=
  [ tonic,
    tonic.semitones_above 2,
    tonic.semitones_above 3,
    tonic.semitones_above 5,
    tonic.semitones_above 7,
    tonic.semitones_above 8,
    tonic.semitones_above 10 ]

/-- Insert a note into a sorted list, keeping the tuple order. -/
def insertNote (x : Note) : List Note → List Note
  | [] => [x]
  | y :: ys => if Note.leb x y then x :: y :: ys else y :: insertNote x ys

/-- Python `sorted` on notes: on lists of distinct notes every correct sort
(Python uses a stable mergesort) produces the same uniquely-determined
ascending list, here computed by insertion sort over the tuple order. -/
def sortNotes : List Note → List Note
  | [] => []
  | x :: xs => insertNote x (sortNotes xs)

/-- `ALL_NOTES_SHARPS`: naturals plus sharps on letters that can be sharp. -/
def ALL_NOTES_SHARPS : List Note :=
  sortNotes
    ((LETTER_NOTES.map fun l => Note.mk l .natural) ++
      ((LETTER_NOTES.filter fun l => l ∉ CANT_BE_SHARP).map fun l => Note.mk l .sharp))

/-- `ALL_NOTES_FLATS`: naturals plus flats on letters that can be flat. -/
def ALL_NOTES_FLATS : List Note :=
  sortNotes
    ((LETTER_NOTES.map fun l => Note.mk l .natural) ++
      ((LETTER_NOTES.filter fun l => l ∉ CANT_BE_FLAT).map fun l => Note.mk l .flat))

/-- `ALL_NOTES = sorted(set(ALL_NOTES_SHARPS) | set(ALL_NOTES_FLATS))`: the
union is deduplicated by Note equality and then sorted (the sorted result on
distinct elements does not depend on set iteration order). -/
def ALL_NOTES : List Note :=
  sortNotes ((ALL_NOTES_SHARPS ++ ALL_NOTES_FLATS).dedup)

/-- `MAJOR_SCALES`: key `"<letter> major"` for each natural-letter tonic. -/
def MAJOR_SCALES : List (String × List Note) :=
  LETTER_NOTES.map fun tonic =>
    (String.mk [tonic] ++ " major", major_scale (Note.mk tonic .natural))

/-- `NATURAL_MINOR_SCALES`: key `"<letter> minor"` per natural-letter tonic. -/
def NATURAL_MINOR_SCALES : List (String × List Note) :=
  LETTER_NOTES.map fun tonic =>
    (String.mk [tonic] ++ " minor", natural_minor_scale (Note.mk tonic .natural))

/-- `SCALES`: the registry, `{"chromatic": ALL_NOTES} | MAJOR_SCALES |
NATURAL_MINOR_SCALES` — all keys distinct, so dict merge is concatenation. -/
def SCALES : List (String × List Note) :=
  ("chromatic", ALL_NOTES) :: MAJOR_SCALES ++ NATURAL_MINOR_SCALES

/-- Python `str.upper()` (ASCII behaviour): uppercase each character. -/
def pyUpper (s : String) : String :=
  String.mk (s.data.map Char.toUpper)

/-- Helper for `pySplit`: walk the characters, accumulating the current token. -/
def splitWsAux : List Char → List Char → List String
  | [], acc => if acc = [] then [] else [String.mk acc.reverse]
  | c :: cs, acc =>
    if c.isWhitespace then
      if acc = [] then splitWsAux cs []
      else String.mk acc.reverse :: splitWsAux cs []
    else splitWsAux cs (c :: acc)

/-- Python `str.split()` with no separator: split on runs of whitespace,
discarding empty tokens. -/
def pySplit (s : String) : List String :=
  splitWsAux s.data []

/-- `normalize_scale_name`: the source's ordered case analysis, with the
Python `[letter, quality] = name.split()` unpacking (and its caught
`ValueError`) modelled by the match on `pySplit name`. -/
def normalize_scale_name (name : String) : String :=
  if name = "chromatic" then name
  else if name.length = 1 then pyUpper name ++ " " ++ "major"
  else if name.length = 2 ∧ name.data.getD 1 ' ' = 'm' then
    String.mk [(name.data.getD 0 ' ').toUpper] ++ " " ++ "minor"
  else
    match pySplit name with
    | [letter, quality] => pyUpper letter ++ " " ++ quality
    | _ => name

/-- The note set `{C, D, E, F♯, G, A, B}` that the specification claims for
the C-major scale (stated from the spec, to be tested against the code). -/
def specClaimedCMajor : List Note :=
  [⟨'C', .natural⟩, ⟨'D', .natural⟩, ⟨'E', .natural⟩, ⟨'F', .sharp⟩,
    ⟨'G', .natural⟩, ⟨'A', .natural⟩, ⟨'B', .natural⟩]

/-- The actual C-major note set computed by the code: all seven naturals. -/
def actualCMajor : List Note :=
  [⟨'C', .natural⟩, ⟨'D', .natural⟩, ⟨'E', .natural⟩, ⟨'F', .natural⟩,
    ⟨'G', .natural⟩, ⟨'A', .natural⟩, ⟨'B', .natural⟩]

/-- The semitone offsets of the major scale. -/
def majorOffsets : List Nat := [0, 2, 4, 5, 7, 9, 11]

/-- The seven natural-letter tonics the registry is built from. -/
def naturalTonics : List Note :=
  LETTER_NOTES.map fun l => Note.mk l .natural

/-! ## Helper lemmas -/

theorem applyNTimes_eq_iterate {α : Type u} (f : α → α) (x : α) (n : Nat) :
    applyNTimes f x n = f^[n] x := by
  induction n generalizing x with
  | zero => rfl
  | succ n ih =>
    rw [applyNTimes, ih]
    exact (Function.iterate_succ_apply f n x).symm

theorem semitone_above_ok (n : Note) (h : n.letter ∈ LETTER_NOTES) :
    Note.semitone_above? n = .ok n.semitone_above := by
  obtain ⟨l, a⟩ := n
  fin_cases h <;> cases a <;> rfl

/-! ## Claims -/

/-- C1, counterexample: the chromatic registry entry has 17 elements, not the
21 the claim states. -/
theorem c1_counterexample :
    ALL_NOTES.length = 17 ∧ (ALL_NOTES.length == 21) = false := by
  decide

/-- C1, amended: the chromatic entry `ALL_NOTES` contains exactly 17 distinct
Note values — the deduplicated union of the natural+sharp and natural+flat
spellings — and is sorted strictly ascending by the Note total order. -/
theorem c1_chromatic_entry :
    ALL_NOTES.length = 17 ∧ ALL_NOTES.Nodup ∧ List.Pairwise Note.lt ALL_NOTES ∧
    (∀ n ∈ ALL_NOTES_SHARPS, n ∈ ALL_NOTES) ∧
    (∀ n ∈ ALL_NOTES_FLATS, n ∈ ALL_NOTES) ∧
    (∀ n ∈ ALL_NOTES, n ∈ ALL_NOTES_SHARPS ∨ n ∈ ALL_NOTES_FLATS) := by
  decide

/-- C1, witness for the bounded quantifiers of `c1_chromatic_entry`. -/
theorem c1_chromatic_entry_witness :
    Note.mk 'C' .sharp ∈ ALL_NOTES :=
  c1_chromatic_entry.2.2.2.1 (Note.mk 'C' .sharp) (by decide)

/-- C2, counterexample: the "C major" registry entry contains F natural,
which is not in the claimed set {C, D, E, F♯, G, A, B}. -/
theorem c2_counterexample :
    SCALES.lookup "C major" = some (major_scale ⟨'C', .natural⟩) ∧
    Note.mk 'F' .natural ∈ major_scale ⟨'C', .natural⟩ ∧
    (specClaimedCMajor.contains (Note.mk 'F' .natural)) = false := by
  decide

/-- C2, amended: every element of the registry entry keyed "C major" is a
member of the all-natural set {C, D, E, F, G, A, B}. -/
theorem c2_c_major_notes :
    (SCALES.lookup "C major").isSome = true ∧
    ∀ x ∈ (SCALES.lookup "C major").getD [], x ∈ actualCMajor := by
  decide

/-- C2, witness: C natural is in the "C major" registry entry, hence in the
all-natural set. -/
theorem c2_c_major_notes_witness :
    Note.mk 'C' .natural ∈ actualCMajor :=
  c2_c_major_notes.2 (Note.mk 'C' .natural) (by decide)

/-- C3: `semitone_above` follows the three-way case split on the accidental:
natural and not B/E gives (same letter, sharp); natural and B/E gives
(next letter, natural), so B→C and E→F; sharp gives (next letter, natural),
so G♯→A; flat gives (same letter, natural). -/
theorem c3_semitone_above_cases :
    (∀ n : Note,
      (n.accidental = .natural → n.letter ∉ CANT_BE_SHARP →
        n.semitone_above = ⟨n.letter, .sharp⟩) ∧
      (n.accidental = .natural → n.letter ∈ CANT_BE_SHARP →
        n.semitone_above = ⟨next_letter n.letter, .natural⟩) ∧
      (n.accidental = .sharp → n.semitone_above = ⟨next_letter n.letter, .natural⟩) ∧
      (n.accidental = .flat → n.semitone_above = ⟨n.letter, .natural⟩)) ∧
    Note.semitone_above ⟨'B', .natural⟩ = ⟨'C', .natural⟩ ∧
    Note.semitone_above ⟨'E', .natural⟩ = ⟨'F', .natural⟩ ∧
    Note.semitone_above ⟨'G', .sharp⟩ = ⟨'A', .natural⟩ := by
  refine ⟨fun n => ?_, by decide, by decide, by decide⟩
  obtain ⟨l, a⟩ := n
  cases a <;>
    refine ⟨fun h1 h2 => ?_, fun h1 h2 => ?_, fun h => ?_, fun h => ?_⟩ <;>
    simp_all [Note.semitone_above]

/-- C3, witness: the natural/non-B-E branch at C natural. -/
theorem c3_semitone_above_cases_witness :
    Note.semitone_above ⟨'C', .natural⟩ = ⟨'C', .sharp⟩ :=
  (c3_semitone_above_cases.1 ⟨'C', .natural⟩).1 rfl (by decide)

/-- C4: for every Note, the result of `semitone_above` has accidental natural
or sharp — never flat. -/
theorem c4_never_flat (n : Note) :
    (n.semitone_above).accidental = .natural ∨ (n.semitone_above).accidental = .sharp := by
  obtain ⟨l, a⟩ := n
  cases a
  case flat => simp [Note.semitone_above]
  case natural => simp only [Note.semitone_above]; split <;> simp
  case sharp => simp [Note.semitone_above]

/-- C5: for each of the seven natural tonics, `major_scale` has exactly 7
elements, its i-th element is `semitones_above` at offset [0,2,4,5,7,9,11],
and its first element is the tonic. -/
theorem c5_major_scale_offsets :
    ∀ t ∈ naturalTonics,
      (major_scale t).length = 7 ∧
      (∀ i : Fin 7,
        (major_scale t).getD i.val ⟨'C', .natural⟩ =
          t.semitones_above (majorOffsets.getD i.val 0)) ∧
      (major_scale t).head? = some t := by
  intro t ht
  fin_cases ht <;> exact ⟨by decide, by decide, by decide⟩

/-- C5, witness: the C-natural tonic. -/
theorem c5_major_scale_offsets_witness :
    (major_scale ⟨'C', .natural⟩).length = 7 :=
  (c5_major_scale_offsets ⟨'C', .natural⟩ (by decide)).1

/-- C6: parsing the default natural-inclusive rendering of any Note returns
an equal Note. -/
theorem c6_roundtrip (l : Char) (a : Accidental) (h : l ∈ LETTER_NOTES) :
    Note.from_string (Note.str ⟨l, a⟩) = .ok ⟨l, a⟩ := by
  fin_cases h <;> cases a <;> rfl

/-- C6, witness: round-trip at C♯. -/
theorem c6_roundtrip_witness :
    Note.from_string (Note.str ⟨'C', .sharp⟩) = .ok ⟨'C', .sharp⟩ :=
  c6_roundtrip 'C' .sharp (by decide)

/-- C7: `normalize_scale_name` maps "chromatic" to itself; a single character
to "{uppercase} major"; two characters ending in m to "{uppercase first}
minor"; an input splitting into exactly two whitespace tokens to
"{uppercase letter} {quality}" with the quality case preserved; and returns
every other input unchanged. -/
theorem c7_normalize_scale_name :
    normalize_scale_name "chromatic" = "chromatic" ∧
    (∀ name : String, name.length = 1 →
      normalize_scale_name name = pyUpper name ++ " " ++ "major") ∧
    (∀ name : String, name.length = 2 → name.data.getD 1 ' ' = 'm' →
      normalize_scale_name name =
        String.mk [(name.data.getD 0 ' ').toUpper] ++ " " ++ "minor") ∧
    (∀ name letter quality : String, name ≠ "chromatic" → name.length ≠ 1 →
      ¬(name.length = 2 ∧ name.data.getD 1 ' ' = 'm') →
      pySplit name = [letter, quality] →
      normalize_scale_name name = pyUpper letter ++ " " ++ quality) ∧
    (∀ name : String, name ≠ "chromatic" → name.length ≠ 1 →
      ¬(name.length = 2 ∧ name.data.getD 1 ' ' = 'm') →
      (pySplit name).length ≠ 2 →
      normalize_scale_name name = name) ∧
    normalize_scale_name "c" = "C major" ∧
    normalize_scale_name "fm" = "F minor" ∧
    normalize_scale_name "f major" = "F major" ∧
    normalize_scale_name "F Major" = "F Major" := by
  refine ⟨by decide, ?_, ?_, ?_, ?_, by decide, by decide, by decide, by decide⟩
  · intro name h
    have hne : name ≠ "chromatic" := by
      intro e; rw [e] at h; exact absurd h (by decide)
    unfold normalize_scale_name
    rw [if_neg hne, if_pos h]
  · intro name h2 hm
    have hne : name ≠ "chromatic" := by
      intro e; rw [e] at h2; exact absurd h2 (by decide)
    have hne1 : ¬name.length = 1 := by rw [h2]; decide
    unfold normalize_scale_name
    rw [if_neg hne, if_neg hne1, if_pos ⟨h2, hm⟩]
  · intro name letter quality h0 h1 h2 hs
    unfold normalize_scale_name
    rw [if_neg h0, if_neg h1, if_neg h2, hs]
  · intro name h0 h1 h2 h4
    unfold normalize_scale_name
    rw [if_neg h0, if_neg h1, if_neg h2]
    cases hps : pySplit name with
    | nil => rfl
    | cons a t =>
      cases t with
      | nil => rfl
      | cons b t2 =>
        cases t2 with
        | nil => exact absurd (by rw [hps]; rfl) h4
        | cons c t3 => rfl

/-- C7, witness: the two-token branch at "f major". -/
theorem c7_normalize_scale_name_witness :
    normalize_scale_name "f major" = pyUpper "f" ++ " " ++ "major" :=
  c7_normalize_scale_name.2.2.2.1 "f major" "f" "major"
    (by decide) (by decide) (by decide) (by decide)

/-- C8, counterexample: on the unrecognized input "x", `from_string` raises
a fixed message that does not contain the offending input at all. -/
theorem c8_counterexample :
    Accidental.from_string "x" = .error invalidAccidentalMsg ∧
    invalidAccidentalMsg.data.contains 'x' = false := by
  exact ⟨rfl, by decide⟩

/-- C8, amended: `Accidental.from_string` succeeds exactly on the five inputs
"♭", "b", "♮", "♯", "#" with the stated mapping, and on every other input
fails with the one fixed invalid-accidental message, which does not include
the offending input. -/
theorem c8_accidental_parse :
    Accidental.from_string "♭" = .ok .flat ∧
    Accidental.from_string "b" = .ok .flat ∧
    Accidental.from_string "♮" = .ok .natural ∧
    Accidental.from_string "♯" = .ok .sharp ∧
    Accidental.from_string "#" = .ok .sharp ∧
    ∀ s : String, s ∉ (["♭", "b", "♮", "♯", "#"] : List String) →
      Accidental.from_string s = .error invalidAccidentalMsg := by
  refine ⟨rfl, rfl, rfl, rfl, rfl, ?_⟩
  intro s hs
  simp only [List.mem_cons, List.not_mem_nil, or_false] at hs
  push_neg at hs
  obtain ⟨h1, h2, h3, h4, h5⟩ := hs
  unfold Accidental.from_string
  rw [if_neg h1, if_neg h2, if_neg h3, if_neg h4, if_neg h5]

/-- C8, witness: the failure branch at "x". -/
theorem c8_accidental_parse_witness :
    Accidental.from_string "x" = .error invalidAccidentalMsg :=
  c8_accidental_parse.2.2.2.2.2 "x" (by decide)

/-- C9: `semitones_above note n` is `semitone_above` applied n times (so 0
steps is the identity), `tone_above` is 2 semitones, and `tones_above n` is
2n semitones. -/
theorem c9_semitones_above_iterates :
    ∀ (n : Note) (k : Nat),
      n.semitones_above k = Note.semitone_above^[k] n ∧
      n.semitones_above 0 = n ∧
      n.tone_above = n.semitones_above 2 ∧
      ∀ m : Nat, n.tones_above m = n.semitones_above (2 * m) := by
  intro n k
  exact ⟨applyNTimes_eq_iterate _ _ _, rfl, rfl, fun m => rfl⟩

/-- C10: the constructor validates only the letter, so the non-standard
spellings B♯, E♯, C♭, F♭ are constructible, and `semitone_above` (with its
internal constructor checks kept) succeeds on all of them — in particular
B♯ steps to C natural through the sharp branch rather than failing. -/
theorem c10_nonstandard_spellings :
    Note.mk? 'B' .sharp = .ok ⟨'B', .sharp⟩ ∧
    Note.mk? 'E' .sharp = .ok ⟨'E', .sharp⟩ ∧
    Note.mk? 'C' .flat = .ok ⟨'C', .flat⟩ ∧
    Note.mk? 'F' .flat = .ok ⟨'F', .flat⟩ ∧
    Note.semitone_above? ⟨'B', .sharp⟩ = .ok ⟨'C', .natural⟩ ∧
    Note.semitone_above? ⟨'E', .sharp⟩ = .ok ⟨'F', .natural⟩ ∧
    Note.semitone_above? ⟨'C', .flat⟩ = .ok ⟨'C', .natural⟩ ∧
    Note.semitone_above? ⟨'F', .flat⟩ = .ok ⟨'F', .natural⟩ ∧
    Note.semitone_above ⟨'B', .sharp⟩ = ⟨'C', .natural⟩ :=
  ⟨rfl, rfl, rfl, rfl, rfl, rfl, rfl, rfl, rfl⟩
